import Mathlib

/-!
Shallow embedding of the instance-store / provider core of the
`dependency-depression` (aioinject) repository:

* `aioinject/_store.py` — `InstanceStore`, `SingletonStore`
* `aioinject/_utils.py` — `enter_context_maybe`, `enter_sync_context_maybe`
* `aioinject/providers.py` — `Scoped`, `Singleton`, `Transient`, `Object`,
  `_guess_return_type`, `collect_dependencies`

Machine-level conventions: `TypeKey`s and instances are abstracted as `Nat`;
a Python exception is a tag together with its `__context__` chain of tags;
a registered exit callback (the `__exit__` of a generator-shaped context
manager) is a `Release` that either succeeds or raises a given tag.
-/

namespace Aioinject

/-- Lifetimes, from `providers.DependencyLifetime`. -/
inductive DependencyLifetime
  | transient
  | scoped
  | singleton
deriving DecidableEq, Repr

/-- A provider as the store sees it: a cache key (`type_`) and a lifetime
(`_store.py` only reads these two attributes). -/
structure Provider where
  type_ : Nat
  lifetime : DependencyLifetime
deriving DecidableEq, Repr

/-- A release action registered on an exit stack: `id` identifies the resource,
`failTag` is `some t` when running the release raises the exception tagged `t`. -/
structure Release where
  id : Nat
  failTag : Option Nat
deriving DecidableEq, Repr

/-- A raised Python error as observed by the caller of a store close.
`exc t ctx` is an ordinary exception tagged `t` whose `__context__` chain
carries the tags `ctx` (outermost first).  `resourceReleaseError` is
modelled from the spec: an aggregate error class carrying every individual
release failure; no such class exists anywhere in the source. -/
inductive PyBaseError
  | exc (tag : Nat) (ctxTags : List Nat)
  | resourceReleaseError (failures : List Nat)
deriving DecidableEq, Repr

/-- The tag chain of a pending exception: its own tag followed by its
`__context__` tags. -/
def chainOf : Option PyBaseError → List Nat
  | none => []
  | some (.exc t ctx) => t :: ctx
  | some (.resourceReleaseError fs) => fs

/-- The unwind loop of CPython `contextlib.ExitStack.__exit__` /
`AsyncExitStack.__aexit__` (which `InstanceStore.__exit__` / `__aexit__`
delegate to): callbacks run from the top of the stack (head of the list);
a callback that raises replaces the pending exception with its own, the
previous pending exception becoming the new one's `__context__`; every
callback runs regardless; the final pending exception, if any, is raised.
Returns the ids of the callbacks executed, in execution order, and the
final pending exception. -/
def runCallbacks : List Release → Option PyBaseError → List Nat × Option PyBaseError
  | [], exc => ([], exc)
  | r :: rest, exc =>
    let excNext : Option PyBaseError :=
      match r.failTag with
      | none => exc
      | some t => some (.exc t (chainOf exc))
    let tail := runCallbacks rest excNext
    (r.id :: tail.1, tail.2)

/-- Values flowing into `enter_context_maybe` / `enter_sync_context_maybe`.
`genCM` is a `contextlib._GeneratorContextManager` (an instance of
`contextlib.ContextDecorator`), `asyncGenCM` a
`contextlib._AsyncGeneratorContextManager` (an instance of
`contextlib.AsyncContextDecorator`); `plainCM` is an object implementing
only `__enter__`/`__exit__` without subclassing either decorator class;
`plain` is any other value.  For the two generator-shaped forms, `v` is the
value the manager yields on entry and `r` the release action its exit
performs. -/
inductive Value
  | plain (v : Nat)
  | plainCM (v : Nat)
  | genCM (v : Nat) (r : Release)
  | asyncGenCM (v : Nat) (r : Release)
deriving DecidableEq, Repr

/-- `_utils.enter_sync_context_maybe`: enters the value and registers its
release on the (sync) stack only when it is a `contextlib.ContextDecorator`
instance; every other value is returned unchanged with the stack untouched. -/
def enter_sync_context_maybe : Value → List Release → Value × List Release
  | .genCM v r, stack => (.plain v, r :: stack)
  | val, stack => (val, stack)

/-- `_utils.enter_context_maybe`: enters the value and registers its release
on the (async) stack when it is a `contextlib.ContextDecorator` or a
`contextlib.AsyncContextDecorator` instance; every other value is returned
unchanged with the stack untouched. -/
def enter_context_maybe : Value → List Release → Value × List Release
  | .genCM v r, stack => (.plain v, r :: stack)
  | .asyncGenCM v r, stack => (.plain v, r :: stack)
  | val, stack => (val, stack)

/-- `_store.InstanceStore`: a cache (a `dict[type, Any]`, modelled as an
association list where the most recent write is the head) plus one async
exit stack (`_exit_stack`) and one sync exit stack (`_sync_exit_stack`),
each modelled as the list of registered releases, most recent first. -/
structure InstanceStore where
  cache : List (Nat × Nat) := []
  exitStack : List Release := []
  syncExitStack : List Release := []
deriving DecidableEq, Repr

/-- `InstanceStore.get`: `self._cache.get(provider.type_, NotInCache.sentinel)`;
`none` plays the role of the `NotInCache` sentinel. -/
def InstanceStore.get (s : InstanceStore) (p : Provider) : Option Nat :=
  s.cache.lookup p.type_

/-- `InstanceStore.add`: cache the instance under `provider.type_` unless the
provider's lifetime is transient. -/
def InstanceStore.add (s : InstanceStore) (p : Provider) (obj : Nat) : InstanceStore :=
  if p.lifetime ≠ DependencyLifetime.transient then
    { s with cache := (p.type_, obj) :: s.cache }
  else s

/-- `InstanceStore.lock`: `contextlib.nullcontext(provider.type_ not in self._cache)` —
the acquisition is immediate and the yielded flag is the membership test. -/
def InstanceStore.lock (s : InstanceStore) (p : Provider) : Bool :=
  (s.cache.lookup p.type_).isNone

/-- `InstanceStore.sync_lock`: identical to `lock` on a plain `InstanceStore`. -/
def InstanceStore.sync_lock (s : InstanceStore) (p : Provider) : Bool :=
  (s.cache.lookup p.type_).isNone

/-- `InstanceStore.enter_sync_context`: delegate to `enter_sync_context_maybe`
against `_sync_exit_stack`. -/
def InstanceStore.enter_sync_context (s : InstanceStore) (v : Value) :
    Value × InstanceStore :=
  let r := enter_sync_context_maybe v s.syncExitStack
  (r.1, { s with syncExitStack := r.2 })

/-- `InstanceStore.enter_context`: delegate to `enter_context_maybe` against
`_exit_stack`. -/
def InstanceStore.enter_context (s : InstanceStore) (v : Value) :
    Value × InstanceStore :=
  let r := enter_context_maybe v s.exitStack
  (r.1, { s with exitStack := r.2 })

/-- `InstanceStore.close` = `self.__exit__(None, None, None)`: unwind the sync
exit stack.  Returns the executed release ids in execution order, the raised
exception if any, and the store afterwards (`ExitStack` pops every callback). -/
def InstanceStore.close (s : InstanceStore) :
    List Nat × Option PyBaseError × InstanceStore :=
  let r := runCallbacks s.syncExitStack none
  (r.1, r.2, { s with syncExitStack := [] })

/-- `InstanceStore.aclose` = `await self.__aexit__(None, None, None)`: unwind
the async exit stack. -/
def InstanceStore.aclose (s : InstanceStore) :
    List Nat × Option PyBaseError × InstanceStore :=
  let r := runCallbacks s.exitStack none
  (r.1, r.2, { s with exitStack := [] })

/-- Fold a list of `(provider, instance)` pairs through `add`. -/
def addAll (s : InstanceStore) (l : List (Provider × Nat)) : InstanceStore :=
  l.foldl (fun st pr => st.add pr.1 pr.2) s

/-- Enter a list of values in order through `enter_sync_context`, keeping the
store. -/
def enterAllSync (s : InstanceStore) (vs : List Value) : InstanceStore :=
  vs.foldl (fun st v => (st.enter_sync_context v).2) s

/-- Enter a list of values in order through `enter_context`, keeping the
store. -/
def enterAllAsync (s : InstanceStore) (vs : List Value) : InstanceStore :=
  vs.foldl (fun st v => (st.enter_context v).2) s

/-- Modelled from the spec: close raising an aggregate `ResourceReleaseError`
carrying every individual failure (spec section 7); the class is absent from
the source, which delegates to `contextlib.ExitStack`.  Kept for comparison
with `InstanceStore.close`. -/
def closeSpecAggregate (s : InstanceStore) :
    List Nat × Option PyBaseError × InstanceStore :=
  let fails := s.syncExitStack.filterMap (·.failTag)
  (s.syncExitStack.map (·.id),
   if fails = [] then none else some (.resourceReleaseError fails),
   { s with syncExitStack := [] })

/-! ### Providers (`providers.py`) -/

/-- Python types as far as `_guess_return_type` inspects them: a plain class,
a generic `Iterator[t]` / `AsyncIterator[t]` alias, or `typing.Self`. -/
inductive Ty
  | base (n : Nat)
  | iteratorOf (t : Ty)
  | asyncIteratorOf (t : Ty)
  | selfTy
deriving DecidableEq, Repr

/-- The return annotation of a factory function as `_get_type_hints` /
`get_return_annotation` see it: resolved to a type, absent (the `KeyError`
branch), or present but unresolvable even through the
`get_return_annotation` fallback (the nested `NameError` branch). -/
inductive RetAnn
  | resolved (t : Ty)
  | missing
  | unresolvable
deriving DecidableEq, Repr

/-- The registration-time shape of a factory that is not a class: its return
annotation, whether it is a (sync/async) generator function, and the bound
`__self__` class for a classmethod returning `typing.Self`. -/
structure FnShape where
  ret : RetAnn
  isGeneratorFn : Bool
  isAsyncGenFn : Bool
  selfCls : Option Ty
deriving DecidableEq, Repr

/-- The registration-time shape of a factory: a class (or generic alias with a
class origin), or a plain callable. -/
inductive FactoryShape
  | cls (t : Ty)
  | fn (f : FnShape)
deriving DecidableEq, Repr

/-- Raised Python errors on the provider paths.  `valueError` is the
`ValueError` raised by `_guess_return_type` (`msg 0`: missing return type,
`msg 1`: return type not defined yet); `userError` is an arbitrary exception
raised by a factory at construction time.  `constructionError` is modelled
from the spec: a wrapper class annotated with the requested `TypeKey`
(spec section 7); no such class exists anywhere in the source. -/
inductive PyErr
  | valueError (msg : Nat)
  | userError (tag : Nat)
  | constructionError (typeKey : Nat) (innerTag : Nat)
deriving DecidableEq, Repr

/-- The generator-unwrapping step of `_guess_return_type`: when the annotation
origin is a (sync/async) generator alias and the factory is a matching
generator function, the produced type is the first type argument. -/
def unwrapGenerator (f : FnShape) (t : Ty) : Ty :=
  match t with
  | .iteratorOf u => if f.isGeneratorFn then u else t
  | .asyncIteratorOf u => if f.isAsyncGenFn then u else t
  | _ => t

/-- `providers._guess_return_type`: a class is its own produced type; a
callable's produced type comes from its return annotation (generators
unwrapped, classmethod `Self` resolved through `__self__`); a missing or
unresolvable annotation raises `ValueError`. -/
def guessReturnType : FactoryShape → Except PyErr Ty
  | .cls t => .ok t
  | .fn f =>
    match f.ret with
    | .missing => .error (.valueError 0)
    | .unresolvable => .error (.valueError 1)
    | .resolved t =>
      match unwrapGenerator f t, f.selfCls with
      | .selfTy, some c => .ok c
      | u, _ => .ok u

/-- A factory as the provider holds it: its registration-time shape, its
runtime behaviour (kwargs to a result or a raised exception), and whether it
is a coroutine function (`inspect.iscoroutinefunction`). -/
structure FactoryImpl where
  shape : FactoryShape
  call : List (Nat × Nat) → Except PyErr Nat
  isCoroutineFn : Bool

/-- `providers.Scoped` (and through it `Singleton` / `Transient`, which only
override `lifetime`): the factory plus the resolved produced type. -/
structure ScopedProvider where
  impl : FactoryImpl
  type_ : Ty

/-- `Scoped.__init__`: `self.type_ = type_ or _guess_return_type(factory)` —
with an explicit type argument registration always succeeds; without one it
fails exactly when `_guess_return_type` raises. -/
def scopedInit (factory : FactoryImpl) (type_ : Option Ty) :
    Except PyErr ScopedProvider :=
  match type_ with
  | some t => .ok { impl := factory, type_ := t }
  | none => (guessReturnType factory.shape).map fun t =>
      { impl := factory, type_ := t }

/-- `Scoped.provide_sync`: `return self.impl(**kwargs)` — the factory's
result, or its raised exception, unchanged. -/
def ScopedProvider.provide_sync (p : ScopedProvider)
    (kwargs : List (Nat × Nat)) : Except PyErr Nat :=
  p.impl.call kwargs

/-- `Scoped.provide`: await the factory when it is a coroutine function, else
delegate to `provide_sync`. -/
def ScopedProvider.provide (p : ScopedProvider)
    (kwargs : List (Nat × Nat)) : Except PyErr Nat :=
  if p.impl.isCoroutineFn then p.impl.call kwargs
  else p.provide_sync kwargs

/-- Modelled from the spec: the resolution driver (spec section 2 data flow),
which lives outside `src/`: probe the cache; on a miss invoke the provider's
construction exactly once and cache the result via `add`.  The last component
counts factory invocations performed by this resolution. -/
def resolveSyncOnce (store : InstanceStore) (prov : Provider)
    (construct : Unit → Except PyErr Nat) :
    Except PyErr Nat × InstanceStore × Nat :=
  match store.get prov with
  | some v => (.ok v, store, 0)
  | none =>
    match construct () with
    | .error e => (.error e, store, 1)
    | .ok v => (.ok v, store.add prov v, 1)

/-- A dependency as `providers.Dependency`: a parameter name and its type. -/
structure Dependency where
  name : Nat
  type_ : Ty
deriving DecidableEq, Repr

/-- One entry of a provider's `type_hints` dictionary: the parameter name, the
annotated dependency type, and whether an `Inject` marker is among the
annotation arguments. -/
structure Hint where
  name : Nat
  depType : Ty
  hasInjectMarker : Bool
deriving DecidableEq, Repr

/-- `providers.collect_dependencies` on an already-introspected hints
dictionary: keep exactly the entries carrying an `Inject` marker. -/
def collectDependencies (hints : List Hint) : List Dependency :=
  hints.filterMap fun h =>
    if h.hasInjectMarker then some { name := h.name, type_ := h.depType }
    else none

/-- `providers.Object`: a precomputed value (`impl`) and its type. -/
structure ObjectProvider where
  impl : Nat
  type_ : Ty
deriving DecidableEq, Repr

/-- `Object.provide_sync`: `return self.impl`. -/
def ObjectProvider.provide_sync (p : ObjectProvider)
    (kwargs : List (Nat × Nat)) : Except PyErr Nat :=
  .ok p.impl

/-- `Object.provide`: `return self.impl`. -/
def ObjectProvider.provide (p : ObjectProvider)
    (kwargs : List (Nat × Nat)) : Except PyErr Nat :=
  .ok p.impl

/-- `Object._type_hints`: the class-level empty dictionary returned by
`Object.type_hints`. -/
def ObjectProvider.type_hints (p : ObjectProvider) : List Hint := []

/-- `Provider.collect_dependencies` for `Object`: run `collect_dependencies`
over `self.type_hints(context)` (the `_cached_dependencies` memoisation does
not change the value). -/
def ObjectProvider.collect_dependencies (p : ObjectProvider) : List Dependency :=
  collectDependencies p.type_hints

/-! ### The `SingletonStore` double-checked locking protocol
(`_store.SingletonStore.lock` / `sync_lock`, lines 106-123), as a transition
system for one contended `TypeKey`.  Each requester runs the resolution
protocol for a singleton provider of that key: evaluate the generator's
first membership test (`fastCheck`); on absence wait on the per-key lock of
its path (`_sync_locks` for synchronous callers, `_locks` for asynchronous
ones); once inside, re-evaluate membership (`recheck`, the yielded flag);
construct and cache only when the re-check still reports absence.  The
factory is modelled as returning the current invocation count, so distinct
invocations produce distinct instances. -/

/-- Which lock table a requester uses: `sync_lock` (threading.Lock, from
`_sync_locks`) or `lock` (asyncio.Lock, from `_locks`). -/
inductive Path
  | sync
  | async
deriving DecidableEq, Repr

/-- Program counter of one requester in the protocol. -/
inductive PC
  | fastCheck
  | waiting
  | recheck
  | construct
  | finished
deriving DecidableEq, Repr

/-- One requester: its path, program counter, and the instance it observed
(meaningful once `finished`). -/
structure Requester where
  path : Path
  pc : PC
  val : Nat
deriving DecidableEq, Repr

/-- Global state for `n` requesters contending on one `TypeKey` of one
`SingletonStore`: the cache entry for that key, the factory invocation
count, the holders of the per-key `threading.Lock` and `asyncio.Lock`, and
the requesters. -/
structure SysState (n : Nat) where
  cache : Option Nat
  calls : Nat
  syncLockHolder : Option (Fin n)
  asyncLockHolder : Option (Fin n)
  reqs : Fin n → Requester

/-- The holder of the per-key lock of the given path. -/
def lockOf (p : Path) {n : Nat} (s : SysState n) : Option (Fin n) :=
  match p with
  | .sync => s.syncLockHolder
  | .async => s.asyncLockHolder

/-- Set the holder of the per-key lock of the given path. -/
def setLock (p : Path) {n : Nat} (s : SysState n) (h : Option (Fin n)) :
    SysState n :=
  match p with
  | .sync => { s with syncLockHolder := h }
  | .async => { s with asyncLockHolder := h }

/-- Replace requester `i`. -/
def setReq {n : Nat} (s : SysState n) (i : Fin n) (r : Requester) : SysState n :=
  { s with reqs := Function.update s.reqs i r }

/-- The state after requester `i` constructs: the factory runs (returning the
current invocation count), the result is cached (`store.add`), the per-key
lock of `i`'s path is released on generator exit, and `i` finishes observing
its constructed instance. -/
def publish {n : Nat} (s : SysState n) (i : Fin n) : SysState n :=
  { setLock (s.reqs i).path
      (setReq s i { s.reqs i with pc := .finished, val := s.calls }) none with
    cache := some s.calls, calls := s.calls + 1 }

/-- One interleaved step of requester `i`, following
`SingletonStore.lock` / `sync_lock` and the resolution driver:

* `fastCheckHit`: the first membership test sees the key present — the
  generator yields `False` without touching any lock and the requester
  observes the cached value.
* `fastCheckMiss`: the first test sees the key absent — the requester moves
  to wait on the per-key lock of its path.
* `acquire`: the per-key lock of the requester's path is free and is taken.
* `recheckHit`: under the lock the re-check sees the key present — the
  generator yields `False`, the lock is released, the requester observes the
  cached value.
* `recheckMiss`: under the lock the re-check still sees the key absent — the
  generator yields `True` and the requester will construct.
* `constructDone`: the factory runs, the result is cached, the lock is
  released, the requester observes its own instance. -/
inductive Step {n : Nat} : Fin n → SysState n → SysState n → Prop
  | fastCheckHit (i : Fin n) (v : Nat) (s : SysState n)
      (hpc : (s.reqs i).pc = .fastCheck) (hc : s.cache = some v) :
      Step i s (setReq s i { s.reqs i with pc := .finished, val := v })
  | fastCheckMiss (i : Fin n) (s : SysState n)
      (hpc : (s.reqs i).pc = .fastCheck) (hc : s.cache = none) :
      Step i s (setReq s i { s.reqs i with pc := .waiting })
  | acquire (i : Fin n) (s : SysState n)
      (hpc : (s.reqs i).pc = .waiting)
      (hl : lockOf (s.reqs i).path s = none) :
      Step i s (setLock (s.reqs i).path
        (setReq s i { s.reqs i with pc := .recheck }) (some i))
  | recheckHit (i : Fin n) (v : Nat) (s : SysState n)
      (hpc : (s.reqs i).pc = .recheck) (hc : s.cache = some v) :
      Step i s (setLock (s.reqs i).path
        (setReq s i { s.reqs i with pc := .finished, val := v }) none)
  | recheckMiss (i : Fin n) (s : SysState n)
      (hpc : (s.reqs i).pc = .recheck) (hc : s.cache = none) :
      Step i s (setReq s i { s.reqs i with pc := .construct })
  | constructDone (i : Fin n) (s : SysState n)
      (hpc : (s.reqs i).pc = .construct) :
      Step i s (publish s i)

/-- Initial state: empty cache, factory never invoked, both locks free, every
requester at its first membership test. -/
def initState (n : Nat) (paths : Fin n → Path) : SysState n :=
  { cache := none, calls := 0, syncLockHolder := none, asyncLockHolder := none,
    reqs := fun i => { path := paths i, pc := .fastCheck, val := 0 } }

/-- Reachability under interleaving of requester steps. -/
def Reachable {n : Nat} (paths : Fin n → Path) (s : SysState n) : Prop :=
  Relation.ReflTransGen (fun a b => ∃ i, Step i a b) (initState n paths) s

/-- A requester is inside the critical section of its path's per-key lock. -/
def inCrit (pc : PC) : Prop := pc = .recheck ∨ pc = .construct

/-- The invariant maintained by a homogeneous population (every requester on
path `p`). -/
structure HomInv (p : Path) {n : Nat} (s : SysState n) : Prop where
  pathsEq : ∀ i, (s.reqs i).path = p
  critLock : ∀ i, inCrit (s.reqs i).pc → lockOf p s = some i
  lockCrit : ∀ i, lockOf p s = some i → inCrit (s.reqs i).pc
  constructEmpty : ∀ i, (s.reqs i).pc = .construct → s.cache = none
  callsNone : s.cache = none → s.calls = 0
  callsSome : ∀ v, s.cache = some v → v = 0 ∧ s.calls = 1
  finishedVal : ∀ i, (s.reqs i).pc = .finished → s.cache = some ((s.reqs i).val)

/-- A mixed population: requester 0 resolves synchronously (per-key
`threading.Lock` from `_sync_locks`), requester 1 asynchronously (per-key
`asyncio.Lock` from `_locks`). -/
def mixedPaths : Fin 2 → Path := fun i => if i = 0 then .sync else .async

/-- Mixed-population interleaving, step by step: both requesters miss the
fast check, each acquires the lock of its own table, both re-checks still
see the cache empty, and both construct. -/
def mt0 : SysState 2 := initState 2 mixedPaths

def mt1 : SysState 2 := setReq mt0 0 { mt0.reqs 0 with pc := .waiting }

def mt2 : SysState 2 := setReq mt1 1 { mt1.reqs 1 with pc := .waiting }

def mt3 : SysState 2 :=
  setLock (mt2.reqs 0).path (setReq mt2 0 { mt2.reqs 0 with pc := .recheck })
    (some 0)

def mt4 : SysState 2 :=
  setLock (mt3.reqs 1).path (setReq mt3 1 { mt3.reqs 1 with pc := .recheck })
    (some 1)

def mt5 : SysState 2 := setReq mt4 0 { mt4.reqs 0 with pc := .construct }

def mt6 : SysState 2 := setReq mt5 1 { mt5.reqs 1 with pc := .construct }

def mt7 : SysState 2 := publish mt6 0

def mt8 : SysState 2 := publish mt7 1

/-- A homogeneous population of two synchronous requesters. -/
def homPaths : Fin 2 → Path := fun _ => .sync

/-- Homogeneous run: requester 0 misses the fast check, acquires, re-checks,
constructs; requester 1 then hits the fast check and observes the cached
instance. -/
def ht0 : SysState 2 := initState 2 homPaths

def ht1 : SysState 2 := setReq ht0 0 { ht0.reqs 0 with pc := .waiting }

def ht2 : SysState 2 :=
  setLock (ht1.reqs 0).path (setReq ht1 0 { ht1.reqs 0 with pc := .recheck })
    (some 0)

def ht3 : SysState 2 := setReq ht2 0 { ht2.reqs 0 with pc := .construct }

def ht4 : SysState 2 := publish ht3 0

def ht5 : SysState 2 := setReq ht4 1 { ht4.reqs 1 with pc := .finished, val := 0 }

/-! ### Helper lemmas -/

theorem runCallbacks_ids (l : List Release) (e : Option PyBaseError) :
    (runCallbacks l e).1 = l.map (·.id) := by
  induction l generalizing e with
  | nil => rfl
  | cons r rest ih => simp [runCallbacks, ih]

theorem chainOf_none : chainOf none = [] := rfl

theorem chainOf_exc (t : Nat) (c : List Nat) :
    chainOf (some (.exc t c)) = t :: c := rfl

theorem runCallbacks_cons_snd (r : Release) (rest : List Release)
    (e : Option PyBaseError) :
    (runCallbacks (r :: rest) e).2
      = (runCallbacks rest
          (match r.failTag with
           | none => e
           | some t => some (.exc t (chainOf e)))).2 := rfl

theorem runCallbacks_chain (l : List Release) (e : Option PyBaseError) :
    chainOf (runCallbacks l e).2
      = (l.filterMap (·.failTag)).reverse ++ chainOf e := by
  induction l generalizing e with
  | nil => simp [runCallbacks]
  | cons r rest ih =>
    cases h : r.failTag with
    | none =>
      simp only [runCallbacks_cons_snd, h, List.filterMap_cons]
      exact ih e
    | some t =>
      simp only [runCallbacks_cons_snd, h, List.filterMap_cons]
      rw [ih, chainOf_exc]
      simp

theorem runCallbacks_noFail (l : List Release) (e : Option PyBaseError)
    (h : l.filterMap (·.failTag) = []) : (runCallbacks l e).2 = e := by
  induction l generalizing e with
  | nil => rfl
  | cons r rest ih =>
    cases hr : r.failTag with
    | none =>
      have hrest : rest.filterMap (·.failTag) = [] := by
        simpa [List.filterMap_cons, hr] using h
      simp [runCallbacks, hr, ih _ hrest]
    | some t => simp [List.filterMap_cons, hr] at h

theorem runCallbacks_shape (l : List Release) (e : Option PyBaseError)
    (h : e = none ∨ ∃ t c, e = some (.exc t c)) :
    (runCallbacks l e).2 = none
      ∨ ∃ t c, (runCallbacks l e).2 = some (.exc t c) := by
  induction l generalizing e with
  | nil => exact h
  | cons r rest ih =>
    cases hr : r.failTag with
    | none => simpa [runCallbacks, hr] using ih e h
    | some t =>
      simpa [runCallbacks, hr] using
        ih (some (.exc t (chainOf e))) (Or.inr ⟨t, chainOf e, rfl⟩)

theorem close_of_empty (s : InstanceStore) (h : s.syncExitStack = []) :
    s.close = ([], none, s) := by
  cases s
  subst h
  rfl

theorem aclose_of_empty (s : InstanceStore) (h : s.exitStack = []) :
    s.aclose = ([], none, s) := by
  cases s
  subst h
  rfl

theorem enterAllSync_genCM_stack (rs : List Release) (s : InstanceStore) :
    (enterAllSync s (rs.map fun r => Value.genCM r.id r)).syncExitStack
      = rs.reverse ++ s.syncExitStack := by
  induction rs generalizing s with
  | nil => rfl
  | cons r rest ih =>
    simp [enterAllSync, InstanceStore.enter_sync_context,
      enter_sync_context_maybe] at ih ⊢
    simp [ih]

theorem enterAllAsync_asyncGenCM_stack (rs : List Release) (s : InstanceStore) :
    (enterAllAsync s (rs.map fun r => Value.asyncGenCM r.id r)).exitStack
      = rs.reverse ++ s.exitStack := by
  induction rs generalizing s with
  | nil => rfl
  | cons r rest ih =>
    simp [enterAllAsync, InstanceStore.enter_context,
      enter_context_maybe] at ih ⊢
    simp [ih]

theorem add_lookup (s : InstanceStore) (p : Provider) (o t : Nat) :
    ((s.add p o).cache.lookup t).isSome
      ↔ (p.type_ = t ∧ p.lifetime ≠ DependencyLifetime.transient)
          ∨ (s.cache.lookup t).isSome := by
  by_cases h : p.lifetime = DependencyLifetime.transient
  · simp [InstanceStore.add, h]
  · by_cases ht : t = p.type_
    · subst ht
      simp [InstanceStore.add, h, List.lookup]
    · have hbeq : (t == p.type_) = false := beq_eq_false_iff_ne.2 ht
      have ht' : ¬ p.type_ = t := fun hh => ht hh.symm
      simp [InstanceStore.add, h, List.lookup, hbeq, ht']

theorem addAll_lookup (l : List (Provider × Nat)) (s : InstanceStore) (t : Nat) :
    ((addAll s l).cache.lookup t).isSome
      ↔ (∃ pr ∈ l, pr.1.type_ = t
            ∧ pr.1.lifetime ≠ DependencyLifetime.transient)
          ∨ (s.cache.lookup t).isSome := by
  induction l generalizing s with
  | nil => simp [addAll]
  | cons pr rest ih =>
    have : addAll s (pr :: rest) = addAll (s.add pr.1 pr.2) rest := rfl
    rw [this, ih, add_lookup]
    constructor
    · rintro (h | (h | h))
      · exact Or.inl ⟨_, List.mem_cons_of_mem _ h.choose_spec.1,
          h.choose_spec.2⟩
      · exact Or.inl ⟨pr, List.mem_cons_self _ _, h⟩
      · exact Or.inr h
    · rintro (⟨q, hq, hqt⟩ | h)
      · rcases List.mem_cons.1 hq with rfl | hq
        · exact Or.inr (Or.inl hqt)
        · exact Or.inl ⟨q, hq, hqt⟩
      · exact Or.inr (Or.inr h)

/-! ### Claim theorems -/

/-- C3: `add(provider, instance)` caches the instance under `provider.type`
iff the provider's lifetime is not transient; a transient `add` leaves the
store unchanged and raises no error, and starting from an empty store the
cache contains a key exactly when some non-transient provider with that key
was added — so a type added only through transient providers is never
cached. -/
theorem add_caches_iff_not_transient :
    (∀ (s : InstanceStore) (p : Provider) (o : Nat),
      (p.lifetime = DependencyLifetime.transient → s.add p o = s) ∧
      (p.lifetime ≠ DependencyLifetime.transient → (s.add p o).get p = some o)) ∧
    (∀ (l : List (Provider × Nat)) (t : Nat),
      ((addAll {} l).cache.lookup t).isSome
        ↔ ∃ pr ∈ l, pr.1.type_ = t
            ∧ pr.1.lifetime ≠ DependencyLifetime.transient) := by
  refine ⟨fun s p o => ⟨fun h => ?_, fun h => ?_⟩, fun l t => ?_⟩
  · simp [InstanceStore.add, h]
  · simp [InstanceStore.add, InstanceStore.get, h, List.lookup]
  · rw [addAll_lookup]
    simp [InstanceStore.cache]

/-- C3 witness: a transient add is the identity; a scoped add is readable
back through `get`. -/
theorem add_caches_iff_not_transient_witness :
    (InstanceStore.add {} ⟨0, DependencyLifetime.transient⟩ 5 = {}) ∧
    ((InstanceStore.add {} ⟨0, DependencyLifetime.scoped⟩ 5).get
        ⟨0, DependencyLifetime.scoped⟩ = some 5) :=
  ⟨(add_caches_iff_not_transient.1 {} ⟨0, .transient⟩ 5).1 rfl,
   (add_caches_iff_not_transient.1 {} ⟨0, .scoped⟩ 5).2 (by decide)⟩

/-- C4: resources entered in some order through `enter_sync_context`
(releasing on `close`) or `enter_context` (releasing on `aclose`) are
released in strict reverse order of acquisition. -/
theorem close_releases_in_reverse_order :
    ∀ (s : InstanceStore) (rs : List Release),
      (s.syncExitStack = [] →
        (enterAllSync s (rs.map fun r => Value.genCM r.id r)).close.1
          = (rs.map (·.id)).reverse) ∧
      (s.exitStack = [] →
        (enterAllAsync s (rs.map fun r => Value.asyncGenCM r.id r)).aclose.1
          = (rs.map (·.id)).reverse) := by
  refine fun s rs => ⟨fun h => ?_, fun h => ?_⟩
  · simp [InstanceStore.close, runCallbacks_ids, enterAllSync_genCM_stack, h]
  · simp [InstanceStore.aclose, runCallbacks_ids,
      enterAllAsync_asyncGenCM_stack, h]

/-- C4 witness: entering resources 1, 2, 3 in that order and closing releases
them in order 3, 2, 1, on the sync and on the async path. -/
theorem close_releases_in_reverse_order_witness :
    ((enterAllSync {}
        ([⟨1, none⟩, ⟨2, none⟩, ⟨3, none⟩].map fun r => Value.genCM r.id r)).close.1
      = ([(⟨1, none⟩ : Release), ⟨2, none⟩, ⟨3, none⟩].map (·.id)).reverse) ∧
    ((enterAllAsync {}
        ([⟨1, none⟩, ⟨2, none⟩, ⟨3, none⟩].map fun r => Value.asyncGenCM r.id r)).aclose.1
      = ([(⟨1, none⟩ : Release), ⟨2, none⟩, ⟨3, none⟩].map (·.id)).reverse) :=
  ⟨(close_releases_in_reverse_order {} [⟨1, none⟩, ⟨2, none⟩, ⟨3, none⟩]).1 rfl,
   (close_releases_in_reverse_order {} [⟨1, none⟩, ⟨2, none⟩, ⟨3, none⟩]).2 rfl⟩

/-- C5 counterexample: with two failing releases (entered first: failure tag 1,
entered second: failure tag 2), `close` attempts both but the error raised is
the ordinary individual exception tagged 1 (the first-entered release's own
failure) with tag 2 on its context chain — it is not an aggregate
`ResourceReleaseError` value for any list of failures. -/
theorem close_raises_chained_not_aggregate :
    (enterAllSync {}
        [Value.genCM 10 ⟨10, some 1⟩, Value.genCM 20 ⟨20, some 2⟩]).close.2.1
      = some (PyBaseError.exc 1 [2]) ∧
    ∀ fs : List Nat,
      PyBaseError.exc 1 [2] ≠ PyBaseError.resourceReleaseError fs := by
  exact ⟨rfl, fun fs h => PyBaseError.noConfusion h⟩

/-- C5 (amended): when releases fail during close, every pending release is
still attempted (all callback ids execute, in stack order), the raised
exception's tag chain carries every individual failure (none dropped), no
exception is raised exactly when no release failed, and what is raised is
always an ordinary chained exception, never an aggregate
`ResourceReleaseError`. -/
theorem close_attempts_all_and_chains_every_failure :
    ∀ s : InstanceStore,
      (s.close.1 = s.syncExitStack.map (·.id)) ∧
      (chainOf s.close.2.1 = (s.syncExitStack.filterMap (·.failTag)).reverse) ∧
      (s.close.2.1 = none ↔ s.syncExitStack.filterMap (·.failTag) = []) ∧
      (s.close.2.1 = none ∨ ∃ t c, s.close.2.1 = some (.exc t c)) ∧
      (s.aclose.1 = s.exitStack.map (·.id)) ∧
      (chainOf s.aclose.2.1 = (s.exitStack.filterMap (·.failTag)).reverse) ∧
      (s.aclose.2.1 = none ↔ s.exitStack.filterMap (·.failTag) = []) ∧
      (s.aclose.2.1 = none ∨ ∃ t c, s.aclose.2.1 = some (.exc t c)) := by
  intro s
  have hclose : s.close.2.1 = (runCallbacks s.syncExitStack none).2 := rfl
  have haclose : s.aclose.2.1 = (runCallbacks s.exitStack none).2 := rfl
  have hc1 : chainOf s.close.2.1
      = (s.syncExitStack.filterMap (·.failTag)).reverse := by
    rw [hclose, runCallbacks_chain, chainOf_none, List.append_nil]
  have hc2 : chainOf s.aclose.2.1
      = (s.exitStack.filterMap (·.failTag)).reverse := by
    rw [haclose, runCallbacks_chain, chainOf_none, List.append_nil]
  refine ⟨runCallbacks_ids _ _, hc1, ⟨fun h => ?_, fun h => ?_⟩,
    runCallbacks_shape _ _ (Or.inl rfl),
    runCallbacks_ids _ _, hc2, ⟨fun h => ?_, fun h => ?_⟩,
    runCallbacks_shape _ _ (Or.inl rfl)⟩
  · rw [h, chainOf_none] at hc1
    simpa using hc1.symm
  · exact runCallbacks_noFail _ _ h
  · rw [h, chainOf_none] at hc2
    simpa using hc2.symm
  · exact runCallbacks_noFail _ _ h

/-- C6: `close` and `aclose` are idempotent — a second close on the same store
performs no releases and raises no error — and closing a store into which no
resource was ever entered is safe. -/
theorem close_idempotent :
    ∀ s : InstanceStore,
      (s.close.2.2.close = ([], none, s.close.2.2)) ∧
      (s.aclose.2.2.aclose = ([], none, s.aclose.2.2)) ∧
      (s.syncExitStack = [] → s.close = ([], none, s)) ∧
      (s.exitStack = [] → s.aclose = ([], none, s)) :=
  fun s =>
    ⟨close_of_empty _ rfl, aclose_of_empty _ rfl,
     close_of_empty s, aclose_of_empty s⟩

/-- C6 witness: closing twice after entering one resource, and closing a fresh
store, both release nothing the second time and raise no error. -/
theorem close_idempotent_witness :
    ((enterAllSync {} [Value.genCM 1 ⟨1, none⟩]).close.2.2.close
        = ([], none, (enterAllSync {} [Value.genCM 1 ⟨1, none⟩]).close.2.2)) ∧
    (InstanceStore.close {} = ([], none, ({} : InstanceStore))) ∧
    (InstanceStore.aclose {} = ([], none, ({} : InstanceStore))) :=
  ⟨(close_idempotent (enterAllSync {} [Value.genCM 1 ⟨1, none⟩])).1,
   (close_idempotent {}).2.2.1 rfl, (close_idempotent {}).2.2.2 rfl⟩

/-- C10: `enter_sync_context` drives a value into its active state and
registers its release only when the value is a `contextlib.ContextDecorator`
instance (a generator-shaped context manager); `enter_context` does so for
`ContextDecorator` or `AsyncContextDecorator` instances; every other value —
including a plain context manager implementing only `__enter__`/`__exit__` —
is returned unchanged with no release registered. -/
theorem enter_context_registers_only_decorators :
    ∀ (v : Nat) (r : Release) (s : InstanceStore),
      (s.enter_sync_context (.genCM v r)
        = (.plain v, { s with syncExitStack := r :: s.syncExitStack })) ∧
      (s.enter_sync_context (.plain v) = (.plain v, s)) ∧
      (s.enter_sync_context (.plainCM v) = (.plainCM v, s)) ∧
      (s.enter_sync_context (.asyncGenCM v r) = (.asyncGenCM v r, s)) ∧
      (s.enter_context (.genCM v r)
        = (.plain v, { s with exitStack := r :: s.exitStack })) ∧
      (s.enter_context (.asyncGenCM v r)
        = (.plain v, { s with exitStack := r :: s.exitStack })) ∧
      (s.enter_context (.plain v) = (.plain v, s)) ∧
      (s.enter_context (.plainCM v) = (.plainCM v, s)) :=
  fun v r s => ⟨rfl, rfl, rfl, rfl, rfl, rfl, rfl, rfl⟩

theorem scopedInit_none_error (f : FactoryImpl) (e : PyErr) :
    scopedInit f none = .error e ↔ guessReturnType f.shape = .error e := by
  unfold scopedInit
  cases hg : guessReturnType f.shape with
  | error e' => simp [Except.map]
  | ok t => simp [Except.map]

theorem guessReturnType_error_iff (fs : FactoryShape) :
    (∃ e, guessReturnType fs = .error e)
      ↔ ∃ ff, fs = .fn ff ∧ (ff.ret = .missing ∨ ff.ret = .unresolvable) := by
  cases fs with
  | cls t => simp [guessReturnType]
  | fn ff =>
    cases hr : ff.ret with
    | resolved t =>
      constructor
      · rintro ⟨e, he⟩
        simp only [guessReturnType, hr] at he
        split at he <;> simp at he
      · rintro ⟨ff', hff, hret⟩
        injection hff with hff
        subst hff
        rcases hret with h | h <;> rw [hr] at h <;> cases h
    | missing =>
      constructor
      · intro _
        exact ⟨ff, rfl, Or.inl hr⟩
      · intro _
        exact ⟨.valueError 0, by simp [guessReturnType, hr]⟩
    | unresolvable =>
      constructor
      · intro _
        exact ⟨ff, rfl, Or.inr hr⟩
      · intro _
        exact ⟨.valueError 1, by simp [guessReturnType, hr]⟩

theorem guessReturnType_error_shape (fs : FactoryShape) (e : PyErr)
    (h : guessReturnType fs = .error e) : e = .valueError 0 ∨ e = .valueError 1 := by
  cases fs with
  | cls t => simp [guessReturnType] at h
  | fn ff =>
    cases hr : ff.ret with
    | resolved t =>
      simp only [guessReturnType, hr] at h
      split at h <;> simp at h
    | missing =>
      simp only [guessReturnType, hr] at h
      exact Or.inl (Except.error.inj h).symm
    | unresolvable =>
      simp only [guessReturnType, hr] at h
      exact Or.inr (Except.error.inj h).symm

theorem provide_eq_call (p : ScopedProvider) (kwargs : List (Nat × Nat)) :
    p.provide kwargs = p.impl.call kwargs := by
  cases hC : p.impl.isCoroutineFn <;>
    simp [ScopedProvider.provide, ScopedProvider.provide_sync, hC]

/-- C7 counterexample: a factory raising the exception tagged 7 reaches the
caller of `provide_sync` as exactly that exception, which is not a
`ConstructionError` wrapper for any TypeKey annotation: the code wraps
nothing. -/
theorem provide_sync_error_not_wrapped :
    (ScopedProvider.provide_sync
        { impl := { shape := .fn { ret := .resolved (.base 0),
                                   isGeneratorFn := false,
                                   isAsyncGenFn := false,
                                   selfCls := none },
                    call := fun _ => .error (.userError 7),
                    isCoroutineFn := false },
          type_ := .base 0 } []
      = .error (.userError 7)) ∧
    ∀ tk inner : Nat, PyErr.userError 7 ≠ PyErr.constructionError tk inner :=
  ⟨rfl, fun tk inner h => PyErr.noConfusion h⟩

/-- C7 (amended): a factory failure during construction reaches the immediate
caller of `provide_sync` / `provide` as the original exception unchanged (no
`ConstructionError` wrapper, no TypeKey annotation), and on a cache miss the
store performs exactly one factory invocation, propagates the failure, and
leaves the store unchanged — construction is never retried. -/
theorem construction_error_propagates_unchanged :
    ∀ (p : ScopedProvider) (kwargs : List (Nat × Nat)) (e : PyErr),
      (p.impl.call kwargs = .error e →
        p.provide_sync kwargs = .error e ∧ p.provide kwargs = .error e) ∧
      (∀ (store : InstanceStore) (prov : Provider),
        store.get prov = none → p.impl.call kwargs = .error e →
          resolveSyncOnce store prov (fun _ => p.provide_sync kwargs)
            = (.error e, store, 1)) := by
  refine fun p kwargs e => ⟨fun h => ⟨h, ?_⟩, fun store prov hmiss h => ?_⟩
  · rw [provide_eq_call, h]
  · simp [resolveSyncOnce, hmiss, ScopedProvider.provide_sync, h]

/-- C7 witness: the failing factory tagged 7, resolved through an empty store
for a singleton provider of TypeKey 0, propagates `userError 7` unchanged with
exactly one factory invocation. -/
theorem construction_error_propagates_unchanged_witness :
    (ScopedProvider.provide_sync
        { impl := { shape := .fn { ret := .resolved (.base 0),
                                   isGeneratorFn := false,
                                   isAsyncGenFn := false,
                                   selfCls := none },
                    call := fun _ => .error (.userError 7),
                    isCoroutineFn := false },
          type_ := .base 0 } []
        = .error (.userError 7)) ∧
    (resolveSyncOnce {} ⟨0, DependencyLifetime.singleton⟩
        (fun _ => ScopedProvider.provide_sync
          { impl := { shape := .fn { ret := .resolved (.base 0),
                                     isGeneratorFn := false,
                                     isAsyncGenFn := false,
                                     selfCls := none },
                      call := fun _ => .error (.userError 7),
                      isCoroutineFn := false },
            type_ := .base 0 } [])
      = (.error (.userError 7), {}, 1)) :=
  ⟨((construction_error_propagates_unchanged _ [] (.userError 7)).1 rfl).1,
   (construction_error_propagates_unchanged _ [] (.userError 7)).2
     {} ⟨0, DependencyLifetime.singleton⟩ rfl rfl⟩

/-- C8: without an explicit type argument, provider registration
(`Scoped.__init__` via `_guess_return_type`) fails fast exactly when the
factory's produced type cannot be determined (a non-class factory whose
return annotation is missing or unresolvable), and the failure is the
registration-time type-resolution error (the spec's `TypeResolutionError`, a
`ValueError` in the code); with an explicit type argument registration always
succeeds; and resolution never raises it — `provide_sync` and `provide`
return exactly the factory's own outcome, consulting no type resolution. -/
theorem type_resolution_fails_fast_at_registration :
    ∀ (f : FactoryImpl) (t : Ty) (kwargs : List (Nat × Nat)),
      ((∃ e, scopedInit f none = .error e)
        ↔ ∃ ff, f.shape = .fn ff
            ∧ (ff.ret = .missing ∨ ff.ret = .unresolvable)) ∧
      (∀ e, scopedInit f none = .error e →
        e = .valueError 0 ∨ e = .valueError 1) ∧
      (scopedInit f (some t) = .ok { impl := f, type_ := t }) ∧
      (∀ p : ScopedProvider,
        p.provide_sync kwargs = p.impl.call kwargs
          ∧ p.provide kwargs = p.impl.call kwargs) := by
  refine fun f t kwargs =>
    ⟨?_, fun e he => ?_, rfl, fun p => ⟨rfl, provide_eq_call p kwargs⟩⟩
  · rw [show (∃ e, scopedInit f none = .error e)
        ↔ ∃ e, guessReturnType f.shape = .error e from
      exists_congr fun e => scopedInit_none_error f e]
    exact guessReturnType_error_iff f.shape
  · exact guessReturnType_error_shape _ _ ((scopedInit_none_error f e).1 he)

/-- C8 witness: a non-class factory without a return annotation fails at
registration with the type-resolution `ValueError`; an annotated one
registers fine and resolves through its factory alone. -/
theorem type_resolution_fails_fast_at_registration_witness :
    ((∃ e, scopedInit
        { shape := .fn { ret := .missing, isGeneratorFn := false,
                         isAsyncGenFn := false, selfCls := none },
          call := fun _ => .ok 0, isCoroutineFn := false } none = .error e)
      ↔ ∃ ff, FactoryShape.fn { ret := .missing, isGeneratorFn := false,
                                isAsyncGenFn := false, selfCls := none }
            = .fn ff ∧ (ff.ret = .missing ∨ ff.ret = .unresolvable)) ∧
    (scopedInit
        { shape := .fn { ret := .missing, isGeneratorFn := false,
                         isAsyncGenFn := false, selfCls := none },
          call := fun _ => .ok 0, isCoroutineFn := false } (some (.base 3))
      = .ok { impl := { shape := .fn { ret := .missing, isGeneratorFn := false,
                                       isAsyncGenFn := false, selfCls := none },
                        call := fun _ => .ok 0, isCoroutineFn := false },
              type_ := .base 3 }) ∧
    (PyErr.valueError 0 = .valueError 0 ∨ PyErr.valueError 0 = .valueError 1) :=
  ⟨(type_resolution_fails_fast_at_registration _ (.base 3) []).1,
   (type_resolution_fails_fast_at_registration _ (.base 3) []).2.2.1,
   (type_resolution_fails_fast_at_registration
      { shape := .fn { ret := .missing, isGeneratorFn := false,
                       isAsyncGenFn := false, selfCls := none },
        call := fun _ => .ok 0, isCoroutineFn := false } (.base 3) []).2.1
     (.valueError 0) rfl⟩

/-- C9: an `Object` provider wrapping a precomputed value returns it unchanged
on both construction paths for every kwargs mapping, and its dependency list
is empty. -/
theorem object_provider_returns_value_unchanged :
    ∀ (p : ObjectProvider) (kwargs : List (Nat × Nat)),
      p.provide_sync kwargs = .ok p.impl ∧
      p.provide kwargs = .ok p.impl ∧
      p.collect_dependencies = [] :=
  fun p kwargs => ⟨rfl, rfl, rfl⟩

/-! ### Projection lemmas for the transition system -/

theorem setReq_reqs_same {n : Nat} (s : SysState n) (i : Fin n) (r : Requester) :
    (setReq s i r).reqs i = r := by
  simp [setReq]

theorem setReq_reqs_ne {n : Nat} {s : SysState n} {i j : Fin n} {r : Requester}
    (h : j ≠ i) : (setReq s i r).reqs j = s.reqs j := by
  simp [setReq, Function.update_apply, h]

theorem lockOf_init (q : Path) {n : Nat} (paths : Fin n → Path) :
    lockOf q (initState n paths) = none := by
  cases q <;> rfl

theorem setReq_cache {n : Nat} (s : SysState n) (i : Fin n) (r : Requester) :
    (setReq s i r).cache = s.cache := rfl

theorem setReq_calls {n : Nat} (s : SysState n) (i : Fin n) (r : Requester) :
    (setReq s i r).calls = s.calls := rfl

theorem lockOf_setReq (q : Path) {n : Nat} (s : SysState n) (i : Fin n)
    (r : Requester) : lockOf q (setReq s i r) = lockOf q s := by
  cases q <;> rfl

theorem lockOf_setLock_self (q : Path) {n : Nat} (s : SysState n)
    (h : Option (Fin n)) : lockOf q (setLock q s h) = h := by
  cases q <;> rfl

theorem setLock_cache (q : Path) {n : Nat} (s : SysState n) (h : Option (Fin n)) :
    (setLock q s h).cache = s.cache := by
  cases q <;> rfl

theorem setLock_calls (q : Path) {n : Nat} (s : SysState n) (h : Option (Fin n)) :
    (setLock q s h).calls = s.calls := by
  cases q <;> rfl

theorem setLock_reqs (q : Path) {n : Nat} (s : SysState n) (h : Option (Fin n)) :
    (setLock q s h).reqs = s.reqs := by
  cases q <;> rfl

theorem publish_cache {n : Nat} (s : SysState n) (i : Fin n) :
    (publish s i).cache = some s.calls := rfl

theorem publish_calls {n : Nat} (s : SysState n) (i : Fin n) :
    (publish s i).calls = s.calls + 1 := rfl

theorem publish_reqs {n : Nat} (s : SysState n) (i : Fin n) :
    (publish s i).reqs
      = Function.update s.reqs i
          { s.reqs i with pc := .finished, val := s.calls } := by
  cases hq : (s.reqs i).path <;> simp [publish, setLock, setReq, hq]

theorem lockOf_publish_path {n : Nat} (s : SysState n) (i : Fin n) :
    lockOf (s.reqs i).path (publish s i) = none := by
  cases hq : (s.reqs i).path <;> simp [publish, setLock, lockOf, hq]

theorem not_inCrit_fastCheck : ¬ inCrit PC.fastCheck := by
  rintro (h | h) <;> cases h

theorem not_inCrit_waiting : ¬ inCrit PC.waiting := by
  rintro (h | h) <;> cases h

theorem not_inCrit_finished : ¬ inCrit PC.finished := by
  rintro (h | h) <;> cases h

/-! ### Homogeneous-population invariant -/

theorem init_hom_inv {n : Nat} (paths : Fin n → Path) (p : Path)
    (hp : ∀ i, paths i = p) : HomInv p (initState n paths) := by
  refine ⟨fun i => hp i, fun i h => ?_, fun i h => ?_, fun i h => ?_,
    fun _ => rfl, fun v hv => ?_, fun i h => ?_⟩
  · exact absurd h not_inCrit_fastCheck
  · rw [lockOf_init] at h
    cases h
  · cases h
  · cases hv
  · cases h

theorem hom_inv_step {n : Nat} {p : Path} {s s' : SysState n} {i : Fin n}
    (inv : HomInv p s) (hstep : Step i s s') : HomInv p s' := by
  obtain ⟨hpaths, hcritLock, hlockCrit, hconstructE, hcallsN, hcallsS, hfinV⟩ := inv
  have hpi := hpaths i
  cases hstep with
  | fastCheckHit v s hpc hc =>
    refine ⟨fun j => ?_, fun j hj => ?_, fun j hl => ?_, fun j hj => ?_,
      fun h => ?_, fun w hw => ?_, fun j hj => ?_⟩
    · rcases eq_or_ne j i with heq | hne
      · subst heq
        rw [setReq_reqs_same]
        exact hpi
      · rw [setReq_reqs_ne hne]
        exact hpaths j
    · rcases eq_or_ne j i with heq | hne
      · subst heq
        rw [setReq_reqs_same] at hj
        exact absurd hj not_inCrit_finished
      · rw [setReq_reqs_ne hne] at hj
        rw [lockOf_setReq]
        exact hcritLock j hj
    · rw [lockOf_setReq] at hl
      rcases eq_or_ne j i with heq | hne
      · subst heq
        have hcr := hlockCrit j hl
        rw [hpc] at hcr
        exact absurd hcr not_inCrit_fastCheck
      · rw [setReq_reqs_ne hne]
        exact hlockCrit j hl
    · rw [setReq_cache]
      rcases eq_or_ne j i with heq | hne
      · subst heq
        rw [setReq_reqs_same] at hj
        simp at hj
      · rw [setReq_reqs_ne hne] at hj
        exact hconstructE j hj
    · rw [setReq_cache] at h
      rw [setReq_calls]
      exact hcallsN h
    · rw [setReq_cache] at hw
      rw [setReq_calls]
      exact hcallsS w hw
    · rw [setReq_cache]
      rcases eq_or_ne j i with heq | hne
      · subst heq
        rw [setReq_reqs_same] at hj ⊢
        exact hc
      · rw [setReq_reqs_ne hne] at hj ⊢
        exact hfinV j hj
  | fastCheckMiss s hpc hc =>
    refine ⟨fun j => ?_, fun j hj => ?_, fun j hl => ?_, fun j hj => ?_,
      fun h => ?_, fun w hw => ?_, fun j hj => ?_⟩
    · rcases eq_or_ne j i with heq | hne
      · subst heq
        rw [setReq_reqs_same]
        exact hpi
      · rw [setReq_reqs_ne hne]
        exact hpaths j
    · rcases eq_or_ne j i with heq | hne
      · subst heq
        rw [setReq_reqs_same] at hj
        exact absurd hj not_inCrit_waiting
      · rw [setReq_reqs_ne hne] at hj
        rw [lockOf_setReq]
        exact hcritLock j hj
    · rw [lockOf_setReq] at hl
      rcases eq_or_ne j i with heq | hne
      · subst heq
        have hcr := hlockCrit j hl
        rw [hpc] at hcr
        exact absurd hcr not_inCrit_fastCheck
      · rw [setReq_reqs_ne hne]
        exact hlockCrit j hl
    · rw [setReq_cache]
      rcases eq_or_ne j i with heq | hne
      · subst heq
        rw [setReq_reqs_same] at hj
        simp at hj
      · rw [setReq_reqs_ne hne] at hj
        exact hconstructE j hj
    · rw [setReq_cache] at h
      rw [setReq_calls]
      exact hcallsN h
    · rw [setReq_cache] at hw
      rw [setReq_calls]
      exact hcallsS w hw
    · rw [setReq_cache]
      rcases eq_or_ne j i with heq | hne
      · subst heq
        rw [setReq_reqs_same] at hj
        simp at hj
      · rw [setReq_reqs_ne hne] at hj ⊢
        exact hfinV j hj
  | acquire s hpc hl =>
    rw [hpi] at hl ⊢
    refine ⟨fun j => ?_, fun j hj => ?_, fun j hl2 => ?_, fun j hj => ?_,
      fun h => ?_, fun w hw => ?_, fun j hj => ?_⟩
    · rw [setLock_reqs]
      rcases eq_or_ne j i with heq | hne
      · subst heq
        rw [setReq_reqs_same]
        exact hpi
      · rw [setReq_reqs_ne hne]
        exact hpaths j
    · rw [lockOf_setLock_self]
      rw [setLock_reqs] at hj
      rcases eq_or_ne j i with heq | hne
      · subst heq
        rfl
      · rw [setReq_reqs_ne hne] at hj
        have h2 := hcritLock j hj
        rw [hl] at h2
        exact Option.noConfusion h2
    · rw [lockOf_setLock_self] at hl2
      cases Option.some.inj hl2
      rw [setLock_reqs, setReq_reqs_same]
      exact Or.inl rfl
    · rw [setLock_cache, setReq_cache]
      rw [setLock_reqs] at hj
      rcases eq_or_ne j i with heq | hne
      · subst heq
        rw [setReq_reqs_same] at hj
        simp at hj
      · rw [setReq_reqs_ne hne] at hj
        exact hconstructE j hj
    · rw [setLock_cache, setReq_cache] at h
      rw [setLock_calls, setReq_calls]
      exact hcallsN h
    · rw [setLock_cache, setReq_cache] at hw
      rw [setLock_calls, setReq_calls]
      exact hcallsS w hw
    · rw [setLock_cache, setReq_cache]
      rw [setLock_reqs] at hj ⊢
      rcases eq_or_ne j i with heq | hne
      · subst heq
        rw [setReq_reqs_same] at hj
        simp at hj
      · rw [setReq_reqs_ne hne] at hj ⊢
        exact hfinV j hj
  | recheckHit v s hpc hc =>
    rw [hpi]
    have hlockme : lockOf p s = some i := hcritLock i (Or.inl hpc)
    refine ⟨fun j => ?_, fun j hj => ?_, fun j hl2 => ?_, fun j hj => ?_,
      fun h => ?_, fun w hw => ?_, fun j hj => ?_⟩
    · rw [setLock_reqs]
      rcases eq_or_ne j i with heq | hne
      · subst heq
        rw [setReq_reqs_same]
        exact hpi
      · rw [setReq_reqs_ne hne]
        exact hpaths j
    · rw [setLock_reqs] at hj
      rcases eq_or_ne j i with heq | hne
      · subst heq
        rw [setReq_reqs_same] at hj
        exact absurd hj not_inCrit_finished
      · rw [setReq_reqs_ne hne] at hj
        have h2 := hcritLock j hj
        exact absurd (Option.some.inj (hlockme.symm.trans h2))
          fun hh => hne hh.symm
    · rw [lockOf_setLock_self] at hl2
      exact Option.noConfusion hl2
    · rw [setLock_cache, setReq_cache]
      rw [setLock_reqs] at hj
      rcases eq_or_ne j i with heq | hne
      · subst heq
        rw [setReq_reqs_same] at hj
        simp at hj
      · rw [setReq_reqs_ne hne] at hj
        exact hconstructE j hj
    · rw [setLock_cache, setReq_cache] at h
      rw [h] at hc
      exact Option.noConfusion hc
    · rw [setLock_cache, setReq_cache] at hw
      rw [setLock_calls, setReq_calls]
      exact hcallsS w hw
    · rw [setLock_cache, setReq_cache]
      rw [setLock_reqs] at hj ⊢
      rcases eq_or_ne j i with heq | hne
      · subst heq
        rw [setReq_reqs_same]
        exact hc
      · rw [setReq_reqs_ne hne] at hj ⊢
        exact hfinV j hj
  | recheckMiss s hpc hc =>
    refine ⟨fun j => ?_, fun j hj => ?_, fun j hl2 => ?_, fun j hj => ?_,
      fun h => ?_, fun w hw => ?_, fun j hj => ?_⟩
    · rcases eq_or_ne j i with heq | hne
      · subst heq
        rw [setReq_reqs_same]
        exact hpi
      · rw [setReq_reqs_ne hne]
        exact hpaths j
    · rw [lockOf_setReq]
      rcases eq_or_ne j i with heq | hne
      · subst heq
        exact hcritLock j (Or.inl hpc)
      · rw [setReq_reqs_ne hne] at hj
        exact hcritLock j hj
    · rw [lockOf_setReq] at hl2
      rcases eq_or_ne j i with heq | hne
      · subst heq
        rw [setReq_reqs_same]
        exact Or.inr rfl
      · rw [setReq_reqs_ne hne]
        exact hlockCrit j hl2
    · rw [setReq_cache]
      exact hc
    · rw [setReq_cache] at h
      rw [setReq_calls]
      exact hcallsN h
    · rw [setReq_cache] at hw
      rw [setReq_calls]
      exact hcallsS w hw
    · rw [setReq_cache]
      rcases eq_or_ne j i with heq | hne
      · subst heq
        rw [setReq_reqs_same] at hj
        simp at hj
      · rw [setReq_reqs_ne hne] at hj ⊢
        exact hfinV j hj
  | constructDone s hpc =>
    have hc : s.cache = none := hconstructE i hpc
    have hc0 : s.calls = 0 := hcallsN hc
    have hlockme : lockOf p s = some i := hcritLock i (Or.inr hpc)
    refine ⟨fun j => ?_, fun j hj => ?_, fun j hl2 => ?_, fun j hj => ?_,
      fun h => ?_, fun w hw => ?_, fun j hj => ?_⟩
    · rw [publish_reqs]
      rcases eq_or_ne j i with heq | hne
      · subst heq
        rw [Function.update_same]
        exact hpi
      · rw [Function.update_noteq hne]
        exact hpaths j
    · rw [publish_reqs] at hj
      rcases eq_or_ne j i with heq | hne
      · subst heq
        rw [Function.update_same] at hj
        exact absurd hj not_inCrit_finished
      · rw [Function.update_noteq hne] at hj
        have h2 := hcritLock j hj
        exact absurd (Option.some.inj (hlockme.symm.trans h2))
          fun hh => hne hh.symm
    · rw [← hpi, lockOf_publish_path] at hl2
      exact Option.noConfusion hl2
    · rw [publish_reqs] at hj
      rcases eq_or_ne j i with heq | hne
      · subst heq
        rw [Function.update_same] at hj
        simp at hj
      · rw [Function.update_noteq hne] at hj
        have h2 := hcritLock j (Or.inr hj)
        exact absurd (Option.some.inj (hlockme.symm.trans h2))
          fun hh => hne hh.symm
    · rw [publish_cache] at h
      exact Option.noConfusion h
    · rw [publish_cache] at hw
      rw [publish_calls, hc0]
      exact ⟨(Option.some.inj hw).symm.trans hc0, rfl⟩
    · rw [publish_cache]
      rw [publish_reqs] at hj ⊢
      rcases eq_or_ne j i with heq | hne
      · subst heq
        rw [Function.update_same]
      · rw [Function.update_noteq hne] at hj ⊢
        have h2 := hfinV j hj
        rw [hc] at h2
        exact Option.noConfusion h2

theorem reachable_hom_inv {n : Nat} (paths : Fin n → Path) (p : Path)
    (hp : ∀ i, paths i = p) (s : SysState n) (hs : Reachable paths s) :
    HomInv p s := by
  induction hs with
  | refl => exact init_hom_inv paths p hp
  | tail _ hbc ih =>
    obtain ⟨i, hstep⟩ := hbc
    exact hom_inv_step ih hstep

theorem mt8_reachable : Reachable mixedPaths mt8 := by
  have s1 : Step (0 : Fin 2) mt0 mt1 := Step.fastCheckMiss 0 mt0 rfl rfl
  have s2 : Step (1 : Fin 2) mt1 mt2 :=
    Step.fastCheckMiss 1 mt1 (by decide) rfl
  have s3 : Step (0 : Fin 2) mt2 mt3 :=
    Step.acquire 0 mt2 (by decide) (by decide)
  have s4 : Step (1 : Fin 2) mt3 mt4 :=
    Step.acquire 1 mt3 (by decide) (by decide)
  have s5 : Step (0 : Fin 2) mt4 mt5 :=
    Step.recheckMiss 0 mt4 (by decide) (by decide)
  have s6 : Step (1 : Fin 2) mt5 mt6 :=
    Step.recheckMiss 1 mt5 (by decide) (by decide)
  have s7 : Step (0 : Fin 2) mt6 mt7 := Step.constructDone 0 mt6 (by decide)
  have s8 : Step (1 : Fin 2) mt7 mt8 := Step.constructDone 1 mt7 (by decide)
  exact Relation.ReflTransGen.tail
    (Relation.ReflTransGen.tail
      (Relation.ReflTransGen.tail
        (Relation.ReflTransGen.tail
          (Relation.ReflTransGen.tail
            (Relation.ReflTransGen.tail
              (Relation.ReflTransGen.tail
                (Relation.ReflTransGen.tail Relation.ReflTransGen.refl
                  ⟨0, s1⟩) ⟨1, s2⟩) ⟨0, s3⟩) ⟨1, s4⟩) ⟨0, s5⟩) ⟨1, s6⟩)
      ⟨0, s7⟩) ⟨1, s8⟩

theorem ht5_reachable : Reachable homPaths ht5 := by
  have s1 : Step (0 : Fin 2) ht0 ht1 := Step.fastCheckMiss 0 ht0 rfl rfl
  have s2 : Step (0 : Fin 2) ht1 ht2 :=
    Step.acquire 0 ht1 (by decide) (by decide)
  have s3 : Step (0 : Fin 2) ht2 ht3 :=
    Step.recheckMiss 0 ht2 (by decide) (by decide)
  have s4 : Step (0 : Fin 2) ht3 ht4 := Step.constructDone 0 ht3 (by decide)
  have s5 : Step (1 : Fin 2) ht4 ht5 :=
    Step.fastCheckHit 1 0 ht4 (by decide) (by decide)
  exact Relation.ReflTransGen.tail
    (Relation.ReflTransGen.tail
      (Relation.ReflTransGen.tail
        (Relation.ReflTransGen.tail
          (Relation.ReflTransGen.tail Relation.ReflTransGen.refl ⟨0, s1⟩)
          ⟨0, s2⟩) ⟨0, s3⟩) ⟨0, s4⟩) ⟨1, s5⟩

/-- C1 counterexample: with one synchronous and one asynchronous requester —
the claim's "(synchronous or asynchronous)" population — resolving the same
singleton TypeKey through one `SingletonStore`, the independent `_sync_locks`
and `_locks` tables admit a real interleaving in which both requesters pass
their re-checks, the bound factory executes twice, and the two requesters
observe different instances. -/
theorem singleton_exactly_once_mixed_counterexample :
    Reachable mixedPaths mt8
      ∧ (mt8.reqs 0).pc = PC.finished
      ∧ (mt8.reqs 1).pc = PC.finished
      ∧ mt8.calls = 2
      ∧ (mt8.reqs 0).val ≠ (mt8.reqs 1).val :=
  ⟨mt8_reachable, by decide, by decide, by decide, by decide⟩

/-- C1 (amended): when all N requesters (N ≥ 2) resolving the same
singleton-lifetime TypeKey through one `SingletonStore` use the same path —
all synchronous, or all asynchronous — then in every complete execution the
bound factory executed exactly once and every requester observed the
identical cached instance. -/
theorem singleton_exactly_once_homogeneous {n : Nat} (paths : Fin n → Path)
    (p : Path) (hp : ∀ i, paths i = p) (s : SysState n)
    (hs : Reachable paths s) (hfin : ∀ i, (s.reqs i).pc = PC.finished)
    (hn : 2 ≤ n) :
    s.calls = 1 ∧ ∃ v, s.cache = some v ∧ ∀ i, (s.reqs i).val = v := by
  have inv := reachable_hom_inv paths p hp s hs
  have i0 : Fin n := ⟨0, lt_of_lt_of_le (by norm_num) hn⟩
  have hcache := inv.finishedVal i0 (hfin i0)
  obtain ⟨hv0, hcalls⟩ := inv.callsSome _ hcache
  refine ⟨hcalls, (s.reqs i0).val, hcache, fun i => ?_⟩
  have hci := inv.finishedVal i (hfin i)
  exact (Option.some.inj (hcache.symm.trans hci)).symm

/-- C1 witness: in the concluded homogeneous run of two synchronous
requesters, the factory executed exactly once. -/
theorem singleton_exactly_once_homogeneous_witness : ht5.calls = 1 :=
  (singleton_exactly_once_homogeneous homPaths .sync (fun _ => rfl) ht5
    ht5_reachable (by decide) (by norm_num)).1

/-- C2: the double-checked pattern of `SingletonStore.lock` / `sync_lock`,
over every step a requester can take: when the key is already cached at the
first check, the generator yields `False` and the requester finishes without
acquiring either per-key mutex; when absent, the requester proceeds to wait
for the per-key mutex of its path without touching either lock table;
acquisition happens only from the waiting state when that mutex is free and
leads to the re-check; and at the re-check the requester is told to construct
(yield `True`) exactly when the key is still absent from the cache, else it
finishes with the cached value (yield `False`). -/
theorem lock_double_checked {n : Nat} :
    ∀ (s s' : SysState n) (i : Fin n), Step i s s' →
      ((s.reqs i).pc = PC.fastCheck → s.cache ≠ none →
        s'.syncLockHolder = s.syncLockHolder
          ∧ s'.asyncLockHolder = s.asyncLockHolder
          ∧ (s'.reqs i).pc = PC.finished) ∧
      ((s.reqs i).pc = PC.fastCheck → s.cache = none →
        (s'.reqs i).pc = PC.waiting
          ∧ s'.syncLockHolder = s.syncLockHolder
          ∧ s'.asyncLockHolder = s.asyncLockHolder) ∧
      ((s.reqs i).pc = PC.waiting →
        lockOf (s.reqs i).path s = none
          ∧ lockOf (s.reqs i).path s' = some i
          ∧ (s'.reqs i).pc = PC.recheck) ∧
      ((s.reqs i).pc = PC.recheck →
        ((s'.reqs i).pc = PC.construct ↔ s.cache = none)) := by
  intro s s' i hstep
  cases hstep with
  | fastCheckHit v s hpc hc =>
    refine ⟨fun h1 h2 => ⟨rfl, rfl, ?_⟩, fun h1 h2 => ?_, fun h1 => ?_,
      fun h1 => ?_⟩
    · rw [setReq_reqs_same]
    · rw [h2] at hc
      exact Option.noConfusion hc
    · rw [hpc] at h1
      exact absurd h1 (by decide)
    · rw [hpc] at h1
      exact absurd h1 (by decide)
  | fastCheckMiss s hpc hc =>
    refine ⟨fun h1 h2 => absurd hc h2, fun h1 h2 => ⟨?_, rfl, rfl⟩,
      fun h1 => ?_, fun h1 => ?_⟩
    · rw [setReq_reqs_same]
    · rw [hpc] at h1
      exact absurd h1 (by decide)
    · rw [hpc] at h1
      exact absurd h1 (by decide)
  | acquire s hpc hl =>
    refine ⟨fun h1 h2 => ?_, fun h1 h2 => ?_, fun h1 => ⟨hl, ?_, ?_⟩,
      fun h1 => ?_⟩
    · rw [hpc] at h1
      exact absurd h1 (by decide)
    · rw [hpc] at h1
      exact absurd h1 (by decide)
    · rw [lockOf_setLock_self]
    · rw [setLock_reqs, setReq_reqs_same]
    · rw [hpc] at h1
      exact absurd h1 (by decide)
  | recheckHit v s hpc hc =>
    refine ⟨fun h1 h2 => ?_, fun h1 h2 => ?_, fun h1 => ?_,
      fun h1 => ⟨fun hcon => ?_, fun hnone => ?_⟩⟩
    · rw [hpc] at h1
      exact absurd h1 (by decide)
    · rw [hpc] at h1
      exact absurd h1 (by decide)
    · rw [hpc] at h1
      exact absurd h1 (by decide)
    · rw [setLock_reqs, setReq_reqs_same] at hcon
      simp at hcon
    · rw [hnone] at hc
      exact Option.noConfusion hc
  | recheckMiss s hpc hc =>
    refine ⟨fun h1 h2 => ?_, fun h1 h2 => ?_, fun h1 => ?_,
      fun h1 => ⟨fun _ => hc, fun _ => ?_⟩⟩
    · rw [hpc] at h1
      exact absurd h1 (by decide)
    · rw [hpc] at h1
      exact absurd h1 (by decide)
    · rw [hpc] at h1
      exact absurd h1 (by decide)
    · rw [setReq_reqs_same]
  | constructDone s hpc =>
    refine ⟨fun h1 h2 => ?_, fun h1 h2 => ?_, fun h1 => ?_, fun h1 => ?_⟩ <;>
      (rw [hpc] at h1; exact absurd h1 (by decide))

/-- C2 witness: requester 0, at the first check with an empty cache, moves to
wait on its per-key mutex without touching either lock table. -/
theorem lock_double_checked_witness :
    (mt1.reqs 0).pc = PC.waiting
      ∧ mt1.syncLockHolder = mt0.syncLockHolder
      ∧ mt1.asyncLockHolder = mt0.asyncLockHolder :=
  (lock_double_checked mt0 mt1 0 (Step.fastCheckMiss 0 mt0 rfl rfl)).2.1
    rfl rfl

end Aioinject
